import Mathlib

/-!
Verification development for the BadmintonBuddy club-management server.

The definitions below are a shallow embedding of the skill-rating engine in
`server/storage.ts` (class `DatabaseStorage`) and of the match routes in
`server/sms-service.ts`.  JavaScript numbers are modelled by `ℚ` (all the
constants occurring in the engine are exact decimal fractions, and every
concrete computation appearing in a theorem below is exact in IEEE double
precision as well, so the idealisation is faithful on those inputs).  The
database tables are modelled as lists of records; `db.update ... where id = pid`
becomes a `List.map` guarded by an id test, and JavaScript's stable
`Array.prototype.sort` becomes `List.insertionSort` (a stable sort).
Timestamps are opaque integers ordered as `new Date(x).getTime()` orders them.
-/

namespace BadmintonBuddy

/-- Row of the `players` table (`shared/schema.ts`).  Fields not read by any
function embedded here (`role`, `mobileNumber`) are omitted. -/
@[ext]
structure Player where
  id : Nat
  name : String
  skillLevel : Int
  originalSkillLevel : Option Int
  previousSkillLevel : Option Int
  isActive : Bool
  lastSkillUpdate : Option Nat
  deriving Repr, DecidableEq

/-- Row of the `matches` table (`shared/schema.ts`).  `winnerId` is 1 for
team A and 2 for team B; `playedAt` is the timestamp. -/
structure Match where
  id : Nat
  teamAPlayer1Id : Nat
  teamAPlayer2Id : Nat
  teamBPlayer1Id : Nat
  teamBPlayer2Id : Nat
  teamAScore : Int
  teamBScore : Int
  winnerId : Int
  playedAt : Int
  deriving Repr, DecidableEq

/-- Cast used when a stored integer enters JavaScript arithmetic. -/
def intQ (x : Int) : ℚ := (x : ℚ)

/-- `getAllPlayers` of `DatabaseStorage` (storage.ts:766): selects the rows
with `isActive = true`. -/
def getAllPlayers (db : List Player) : List Player :=
  db.filter (fun p => p.isActive)

/-- `db.select().from(players).where(eq(players.id, pid))`, as used by
`getPlayer` (storage.ts:761): first row with the given id, no activity
filter. -/
def findById (db : List Player) (pid : Nat) : Option Player :=
  db.find? (fun p => p.id == pid)

/-- Membership test of the match filter in `checkForSkillLevelUpdates`
(storage.ts:1050-1055): the player appears in either team. -/
def involvesPlayer (m : Match) (pid : Nat) : Bool :=
  m.teamAPlayer1Id == pid || m.teamAPlayer2Id == pid ||
    m.teamBPlayer1Id == pid || m.teamBPlayer2Id == pid

/-- Comparator of `sort((a, b) => new Date(b.playedAt).getTime() - new
Date(a.playedAt).getTime())`: most recent first.  The JS sort is stable, so a
stable sort models it. -/
def moreRecentFirst (a b : Match) : Prop := b.playedAt ≤ a.playedAt

instance : DecidableRel moreRecentFirst := fun a b => by
  unfold moreRecentFirst; infer_instance

/-- The player's matches, most recent first (storage.ts:1050-1055). -/
def playerMatchesOf (ms : List Match) (pid : Nat) : List Match :=
  List.insertionSort moreRecentFirst (ms.filter (fun m => involvesPlayer m pid))

/-- `isTeamA` (storage.ts:1070). -/
def isTeamAOf (m : Match) (pid : Nat) : Bool :=
  m.teamAPlayer1Id == pid || m.teamAPlayer2Id == pid

/-- `playerWon` (storage.ts:1071-1072): `teamWon` is `"A"` exactly when
`winnerId === 1`. -/
def playerWonMatch (m : Match) (pid : Nat) : Bool :=
  let isTeamA := isTeamAOf m pid
  let teamWonA := m.winnerId == 1
  (isTeamA && teamWonA) || (!isTeamA && !teamWonA)

/-- Skill levels of the opposing players that are found in the roster
(storage.ts:1079-1095): each missing opponent record is simply skipped. -/
def opponentSkillLevels (allPlayers : List Player) (m : Match) (pid : Nat) : List Int :=
  let oppIds :=
    if isTeamAOf m pid then (m.teamBPlayer1Id, m.teamBPlayer2Id)
    else (m.teamAPlayer1Id, m.teamAPlayer2Id)
  (match findById allPlayers oppIds.1 with
   | some p => [p.skillLevel]
   | none => []) ++
  (match findById allPlayers oppIds.2 with
   | some p => [p.skillLevel]
   | none => [])

/-- The player's own score and the opponents' score in a match
(storage.ts:1086-1087, 1094-1095). -/
def matchPointDifference (m : Match) (pid : Nat) : Int :=
  if isTeamAOf m pid then m.teamAScore - m.teamBScore
  else m.teamBScore - m.teamAScore

/-- `avgOpponentSkill` (storage.ts:1098-1100): mean of the found opponents'
levels, defaulting to the player's own level only when no opponent was
found. -/
def avgOpponentSkill (allPlayers : List Player) (player : Player) (m : Match) : ℚ :=
  let sk := opponentSkillLevels allPlayers m player.id
  if sk.length > 0 then ((sk.map intQ).sum) / (sk.length : ℚ)
  else intQ player.skillLevel

/-- Per-match performance score of `checkForSkillLevelUpdates`
(storage.ts:1102-1150), transcribed clause by clause. -/
def matchScore (allPlayers : List Player) (player : Player) (m : Match) : ℚ :=
  let skillDifference : ℚ := avgOpponentSkill allPlayers player m - intQ player.skillLevel
  let pointDifference : ℚ := intQ (matchPointDifference m player.id)
  if playerWonMatch m player.id then
    let winScore : ℚ := 1.0
    let winScore :=
      if skillDifference > 0 then winScore * (1.0 + skillDifference * 0.25)
      else if skillDifference < 0 then winScore * (1.0 - |skillDifference| * 0.15)
      else winScore
    let pointBonus := min (pointDifference * 0.1) 0.5
    winScore * (1.0 + pointBonus)
  else
    let lossScore : ℚ := -1.0
    let lossScore :=
      if skillDifference > 0 then lossScore * (1.0 - skillDifference * 0.2)
      else if skillDifference < 0 then lossScore * (1.0 + |skillDifference| * 0.3)
      else lossScore
    let pointPenalty := max (|pointDifference| * 0.1) 0.5
    lossScore * (1.0 + pointPenalty)

/-- `matchesToAnalyze` as a function of the total match count
(storage.ts:1064-1065): 5 when auto-updating, otherwise `min total 3`. -/
def matchesToAnalyzeFor (total : Nat) : Nat :=
  if total ≥ 5 then 5 else min total 3

/-- The recent matches actually scored (storage.ts:1068). -/
def analysisWindow (ms : List Match) (pid : Nat) : List Match :=
  let pms := playerMatchesOf ms pid
  pms.take (matchesToAnalyzeFor pms.length)

/-- `avgPerformance` (storage.ts:1153): sum of the per-match scores divided by
`totalWeight` (the window size), 0 on an empty window. -/
def avgPerformanceFor (allPlayers : List Player) (ms : List Match) (player : Player) : ℚ :=
  let recent := analysisWindow ms player.id
  let total := (recent.map (matchScore allPlayers player)).sum
  if recent.length > 0 then total / (recent.length : ℚ) else 0

/-- Decision logic of storage.ts:1155-1171: step by one toward the target,
bound to [1,10], then the defensive single-step clamp. -/
def decideNewLevel (skillLevel : Int) (avgPerformance : ℚ) : Int :=
  let newSkillLevel :=
    if avgPerformance > 0.5 ∧ skillLevel < 10 then min (skillLevel + 1) 10
    else if avgPerformance < -0.5 ∧ skillLevel > 1 then max (skillLevel - 1) 1
    else skillLevel
  let newSkillLevel := max 1 (min 10 newSkillLevel)
  if (newSkillLevel - skillLevel).natAbs > 1 then
    skillLevel + (if newSkillLevel > skillLevel then 1 else -1)
  else newSkillLevel

/-- Bounding + single-step clamp of `updatePlayerSkillLevel`
(storage.ts:1019-1033), relative to the fetched player's current level. -/
def clampedLevel (cur newLvl : Int) : Int :=
  let bounded := max 1 (min 10 newLvl)
  if (bounded - cur).natAbs > 1 then
    (if bounded > cur then cur + 1 else cur - 1)
  else bounded

/-- `updatePlayerSkillLevel` (storage.ts:1015-1043): fetch the player by id,
clamp, then update the matching row; no-op when the player is absent. -/
def updatePlayerSkillLevel (db : List Player) (pid : Nat) (newSkillLevel : Int)
    (now : Nat) : List Player :=
  match findById db pid with
  | none => db
  | some player =>
    db.map (fun q =>
      if q.id == pid then
        { q with previousSkillLevel := some player.skillLevel,
                 skillLevel := clampedLevel player.skillLevel newSkillLevel,
                 lastSkillUpdate := some now }
      else q)

/-- Per-player decision of `checkForSkillLevelUpdates` (storage.ts:1056-1174):
`some lvl` exactly when the pass commits a change for this player. -/
def decideUpdateFor (allPlayers : List Player) (ms : List Match) (player : Player) :
    Option Int :=
  let pms := playerMatchesOf ms player.id
  if pms.length < 3 then none
  else
    let shouldAutoUpdate := pms.length ≥ 5
    let newSkillLevel := decideNewLevel player.skillLevel (avgPerformanceFor allPlayers ms player)
    if newSkillLevel ≠ player.skillLevel ∧ shouldAutoUpdate then some newSkillLevel
    else none

/-- One iteration of the loop body of `checkForSkillLevelUpdates`: the decision
is computed from the snapshot, the commit is applied to the current table. -/
def checkStep (snapshot : List Player) (ms : List Match) (now : Nat)
    (cur : List Player) (player : Player) : List Player :=
  match decideUpdateFor snapshot ms player with
  | some lvl => updatePlayerSkillLevel cur player.id lvl now
  | none => cur

/-- `checkForSkillLevelUpdates` (storage.ts:1045-1177) iterating over an
explicit order (the source iterates over the snapshot itself). -/
def checkForSkillLevelUpdatesOrder (db : List Player) (ms : List Match) (now : Nat)
    (order : List Player) : List Player :=
  order.foldl (checkStep (getAllPlayers db) ms now) db

/-- `checkForSkillLevelUpdates` (storage.ts:1045-1177): snapshot the active
players and all matches once, then fold the per-player step over them. -/
def checkForSkillLevelUpdates (db : List Player) (ms : List Match) (now : Nat) :
    List Player :=
  checkForSkillLevelUpdatesOrder db ms now (getAllPlayers db)

/-- Entry of the list returned by `getSkillLevelSuggestions`
(storage.ts:1179).  The numeric interpolation inside the reason string
(`avgPerformance.toFixed(2)`) is abstracted away; only the surrounding
template is kept. -/
structure Suggestion where
  playerId : Nat
  name : String
  currentLevel : Int
  suggestedLevel : Int
  reason : String
  matchesAnalyzed : Nat
  matchesNeeded : Option Nat
  deriving Repr, DecidableEq

/-- Per-player body of `getSkillLevelSuggestions` (storage.ts:1184-1299); it
recomputes the same window, score and decision as the update pass and pushes
an entry only when the suggested level differs from the current one. -/
def suggestionFor (allPlayers : List Player) (ms : List Match) (player : Player) :
    Option Suggestion :=
  let pms := playerMatchesOf ms player.id
  if pms.length < 3 then none
  else
    let shouldAutoUpdate := pms.length ≥ 5
    let matchesToAnalyze := matchesToAnalyzeFor pms.length
    let suggestedLevel := decideNewLevel player.skillLevel (avgPerformanceFor allPlayers ms player)
    if suggestedLevel ≠ player.skillLevel then
      some { playerId := player.id
             name := player.name
             currentLevel := player.skillLevel
             suggestedLevel := suggestedLevel
             reason :=
               if suggestedLevel > player.skillLevel then
                 "Strong performance against opponents"
               else
                 "Challenging performance against opponents"
             matchesAnalyzed := matchesToAnalyze
             matchesNeeded := if shouldAutoUpdate then none else some (5 - pms.length) }
    else none

/-- `getSkillLevelSuggestions` (storage.ts:1179-1303). -/
def getSkillLevelSuggestions (db : List Player) (ms : List Match) : List Suggestion :=
  (getAllPlayers db).filterMap (fun p => suggestionFor (getAllPlayers db) ms p)

/-- Record returned per player by `getPlayerStats` (shared/schema.ts
`PlayerStats`), restricted to the fields that function computes and that the
statistics endpoint reads. -/
structure PlayerStats where
  playerId : Nat
  name : String
  skillLevel : Int
  previousSkillLevel : Option Int
  skillLevelChange : Option String
  totalMatches : Nat
  wins : Nat
  losses : Nat
  winRate : Int
  pointsFor : Int
  pointsAgainst : Int
  pointDifference : Int
  suggestedSkillLevel : Option Int
  suggestion : Option String
  suggestionReason : Option String
  recentPerformance : Option String
  deriving Repr, DecidableEq

/-- Per-match contribution to `suggestionScore` in `getPlayerStats`
(storage.ts:939-973); note that this formula differs from the rating engine's
`matchScore` (coefficients 0.3/0.2, no point-margin factor, non-strict gap
comparisons). -/
def statsSuggestionScore (allPlayers : List Player) (player : Player) (m : Match) : ℚ :=
  let skillDifference : ℚ := avgOpponentSkill allPlayers player m - intQ player.skillLevel
  if playerWonMatch m player.id then
    if skillDifference ≥ 0 then 1 + skillDifference * 0.3
    else 1 - |skillDifference| * 0.2
  else
    if skillDifference ≤ 0 then -(1 + |skillDifference| * 0.3)
    else -(1 - skillDifference * 0.2)

/-- Wins of the player over a list of matches (storage.ts:878-886). -/
def winsOver (msList : List Match) (pid : Nat) : Nat :=
  (msList.filter (fun m => playerWonMatch m pid)).length

/-- Points scored by the player's teams over a list of matches
(storage.ts:888-895). -/
def pointsForOver (msList : List Match) (pid : Nat) : Int :=
  (msList.map (fun m => if isTeamAOf m pid then m.teamAScore else m.teamBScore)).sum

/-- Points conceded by the player's teams over a list of matches
(storage.ts:888-895). -/
def pointsAgainstOver (msList : List Match) (pid : Nat) : Int :=
  (msList.map (fun m => if isTeamAOf m pid then m.teamBScore else m.teamAScore)).sum

/-- Per-player body of `getPlayerStats` (storage.ts:855-1013).
`Math.round` rounds half away from zero toward positive infinity on the
non-negative arguments that occur here, which is Mathlib's `round`. -/
def playerStatsFor (allPlayers : List Player) (ms : List Match) (player : Player) :
    PlayerStats :=
  let playerMatches := playerMatchesOf ms player.id
  let recentMatches := playerMatches.take 3
  let wins := winsOver playerMatches player.id
  let recentWins := winsOver recentMatches player.id
  let pointsFor := pointsForOver playerMatches player.id
  let pointsAgainst := pointsAgainstOver playerMatches player.id
  let losses := playerMatches.length - wins
  let winRate : Int :=
    if playerMatches.length > 0 then
      round ((wins : ℚ) / (playerMatches.length : ℚ) * 100)
    else 0
  let pointDifference := pointsFor - pointsAgainst
  let recentWinRate : Int :=
    if recentMatches.length > 0 then
      round ((recentWins : ℚ) / (recentMatches.length : ℚ) * 100)
    else 0
  let skillLevelChange : Option String :=
    match player.previousSkillLevel with
    | none => none
    | some prev =>
      if player.skillLevel > prev then some "increased"
      else if player.skillLevel < prev then some "decreased"
      else some "unchanged"
  let recentPerformance : Option String :=
    if recentMatches.length ≥ 3 then
      (if recentWinRate ≥ 67 then some "improving"
       else if recentWinRate ≤ 33 then some "declining"
       else some "stable")
    else none
  let suggestionTriple : Option Int × Option String × Option String :=
    if recentMatches.length ≥ 3 then
      let suggestionScore :=
        (recentMatches.map (statsSuggestionScore allPlayers player)).sum
      let avgWeightedPerformance := suggestionScore / (recentMatches.length : ℚ)
      if avgWeightedPerformance > 0.4 then
        (some (min 10 (player.skillLevel + 1)), some "increase",
         some "Excellent performance against quality opposition. Ready for higher competition.")
      else if avgWeightedPerformance < -0.4 then
        (some (max 1 (player.skillLevel - 1)), some "decrease",
         some "Struggling against current level opponents. Consider skill adjustment.")
      else
        (some player.skillLevel, some "maintain",
         some "Balanced performance considering opponent strength. Current level appropriate.")
    else (none, none, none)
  { playerId := player.id
    name := player.name
    skillLevel := player.skillLevel
    previousSkillLevel := player.previousSkillLevel
    skillLevelChange := skillLevelChange
    totalMatches := playerMatches.length
    wins := wins
    losses := losses
    winRate := winRate
    pointsFor := pointsFor
    pointsAgainst := pointsAgainst
    pointDifference := pointDifference
    suggestedSkillLevel := suggestionTriple.1
    suggestion := suggestionTriple.2.1
    suggestionReason := suggestionTriple.2.2
    recentPerformance := recentPerformance }

/-- `getPlayerStats` without the optional single-player filter
(storage.ts:855-1013): one record per active player. -/
def getPlayerStats (db : List Player) (ms : List Match) : List PlayerStats :=
  (getAllPlayers db).map (playerStatsFor (getAllPlayers db) ms)

/-- JavaScript `a || b` on the stored `originalSkillLevel` (a nullable
number): `null`, `undefined` and `0` all fall through to `b`. -/
def jsOrLevel (orig : Option Int) (fallback : Int) : Int :=
  match orig with
  | some o => if o = 0 then fallback else o
  | none => fallback

/-- First loop of `recalculateAllSkillLevels` (storage.ts:1308-1316): give
every snapshot player without an `originalSkillLevel` one, equal to its
current level. -/
def setOriginalIfMissing (cur : List Player) (p : Player) : List Player :=
  if p.originalSkillLevel.isNone then
    cur.map (fun q => if q.id == p.id then { q with originalSkillLevel := some p.skillLevel } else q)
  else cur

/-- Second loop of `recalculateAllSkillLevels` (storage.ts:1318-1328): reset
every snapshot player to its original level (snapshot values, JS `||`
fallback) and clear `previousSkillLevel` and `lastSkillUpdate`. -/
def resetToOriginal (cur : List Player) (p : Player) : List Player :=
  cur.map (fun q =>
    if q.id == p.id then
      { q with skillLevel := jsOrLevel p.originalSkillLevel p.skillLevel,
               previousSkillLevel := none,
               lastSkillUpdate := none }
    else q)

/-- The two reset loops of `recalculateAllSkillLevels`, folded over the
snapshot of active players taken at the start of the call. -/
def resetPass (db : List Player) : List Player :=
  let snapshot := getAllPlayers db
  snapshot.foldl resetToOriginal (snapshot.foldl setOriginalIfMissing db)

/-- `recalculateAllSkillLevels` (storage.ts:1305-1332): reset every player to
its original level, then re-run the scoring pass on the current match set. -/
def recalculateAllSkillLevels (db : List Player) (ms : List Match) (now : Nat) :
    List Player :=
  checkForSkillLevelUpdates (resetPass db) ms now

/-- Winner derivation of the match routes (sms-service.ts:327 for creation and
sms-service.ts:347-349 for a score edit): team A wins exactly when its score
is strictly higher, otherwise team B is recorded as the winner. -/
def determineWinnerId (teamAScore teamBScore : Int) : Int :=
  if teamAScore > teamBScore then 1 else 2

/-- Score acceptance of `insertMatchSchema` (shared/schema.ts:60-62): both
scores must be at least 0; equal scores are not rejected. -/
def insertMatchAcceptsScores (teamAScore teamBScore : Int) : Prop :=
  0 ≤ teamAScore ∧ 0 ≤ teamBScore

instance (a b : Int) : Decidable (insertMatchAcceptsScores a b) := by
  unfold insertMatchAcceptsScores; infer_instance

/-- Ranking order of the statistics endpoint (sms-service.ts:458-470): win
rate descending, then wins descending, then point difference descending. -/
def rankBefore (a b : PlayerStats) : Prop :=
  if a.winRate ≠ b.winRate then b.winRate < a.winRate
  else if a.wins ≠ b.wins then b.wins < a.wins
  else b.pointDifference ≤ a.pointDifference

instance : DecidableRel rankBefore := fun a b => by
  unfold rankBefore; infer_instance

instance : IsTotal PlayerStats rankBefore := by
  constructor
  intro a b
  unfold rankBefore
  split_ifs <;> omega

instance : IsTrans PlayerStats rankBefore := by
  constructor
  intro a b c
  unfold rankBefore
  split_ifs <;> omega

/-- The `rankedPlayerStats` sort of the statistics endpoint
(sms-service.ts:457-470), with the stable JS sort modelled by a stable
insertion sort. -/
def rankPlayerStats (l : List PlayerStats) : List PlayerStats :=
  List.insertionSort rankBefore l

/-- Player statistics as served by `GET /api/stats` (sms-service.ts:455-470). -/
def statsEndpointPlayerStats (db : List Player) (ms : List Match) : List PlayerStats :=
  rankPlayerStats (getPlayerStats db ms)

/-- Effect of the scoring pass on one snapshot record, in closed form: apply
the clamped commit exactly when `decideUpdateFor` fires. -/
def commitFn (snapshot : List Player) (ms : List Match) (now : Nat) (p : Player) : Player :=
  match decideUpdateFor snapshot ms p with
  | some lvl =>
    { p with previousSkillLevel := some p.skillLevel,
             skillLevel := clampedLevel p.skillLevel lvl,
             lastSkillUpdate := some now }
  | none => p

/-- Combined effect of the two reset loops of `recalculateAllSkillLevels` on
one active record. -/
def resetRecord (q : Player) : Player :=
  { q with originalSkillLevel := some (q.originalSkillLevel.getD q.skillLevel),
           skillLevel := jsOrLevel q.originalSkillLevel q.skillLevel,
           previousSkillLevel := none,
           lastSkillUpdate := none }

/-- Observable outcome of a recomputation: each player's id with its stored
rating. -/
def ratingsOf (db : List Player) : List (Nat × Int) :=
  db.map (fun p => (p.id, p.skillLevel))

/-- Rating gap of the spec (§4.1 step 2): average opponent rating minus the
player's rating. -/
def ratingGapOf (allPlayers : List Player) (player : Player) (m : Match) : ℚ :=
  avgOpponentSkill allPlayers player m - intQ player.skillLevel

/-- Win score exactly as the spec words it (§4.1 step 4): base 1.0, the two
conditional rating-gap factors, then the capped point bonus factor. -/
def winScoreSpec (ratingGap pointDiff : ℚ) : ℚ :=
  1.0 *
    (if ratingGap > 0 then 1.0 + ratingGap * 0.25
     else if ratingGap < 0 then 1.0 - |ratingGap| * 0.15
     else 1.0) *
    (1.0 + min (pointDiff * 0.1) 0.5)

/-- Loss score exactly as the spec words it (§4.1 step 5): base -1.0, the two
conditional rating-gap factors, then the floored point penalty factor. -/
def lossScoreSpec (ratingGap pointDiff : ℚ) : ℚ :=
  -1.0 *
    (if ratingGap > 0 then 1.0 - ratingGap * 0.2
     else if ratingGap < 0 then 1.0 + |ratingGap| * 0.3
     else 1.0) *
    (1.0 + max (|pointDiff| * 0.1) 0.5)

/-- Per-match score as the spec words it: `winScore` on a win, `lossScore` on
a loss. -/
def matchScoreSpec (allPlayers : List Player) (player : Player) (m : Match) : ℚ :=
  let gap := ratingGapOf allPlayers player m
  let pd := intQ (matchPointDifference m player.id)
  if playerWonMatch m player.id then winScoreSpec gap pd else lossScoreSpec gap pd

/-- Fresh active player at a given level, used by the concrete scenarios. -/
def mkPlayer (i : Nat) (lvl : Int) : Player :=
  { id := i, name := "player", skillLevel := lvl, originalSkillLevel := some lvl,
    previousSkillLevel := none, isActive := true, lastSkillUpdate := none }

/-- Doubles match between players 1,2 (team A) and 3,4 (team B) with the given
timestamp, scores and stored winner. -/
def mkMatch (i : Nat) (t : Int) (a b : Int) (w : Int) : Match :=
  { id := i, teamAPlayer1Id := 1, teamAPlayer2Id := 2, teamBPlayer1Id := 3,
    teamBPlayer2Id := 4, teamAScore := a, teamBScore := b, winnerId := w, playedAt := t }

/-- Roster of the spec's §8 worked example: four players rated exactly 5. -/
def exampleDb : List Player := [mkPlayer 1 5, mkPlayer 2 5, mkPlayer 3 5, mkPlayer 4 5]

/-- Match set of the spec's §8 worked example for player 1: five matches, four
won and one lost, all with zero point differential against opponents rated
5.  Match 1 (the oldest) is the loss. -/
def exampleMs : List Match :=
  [mkMatch 1 1 10 10 2, mkMatch 2 2 10 10 1, mkMatch 3 3 10 10 1,
   mkMatch 4 4 10 10 1, mkMatch 5 5 10 10 1]

/-- Roster with one opponent record missing: players 1 and 2 at level 5, the
found opponent (player 3) at level 8, and no record for player 4. -/
def missingOppDb : List Player := [mkPlayer 1 5, mkPlayer 2 5, mkPlayer 3 8]

/-- Match whose team B contains the found opponent 3 and the missing player 4. -/
def missingOppMatch : Match := mkMatch 9 1 10 4 1

/-- Match set giving player 1 three wins by one point: each win scores
1.0 * (1 + min(0.1, 0.5)) = 1.1, so the three-match average is 1.1 > 0.5. -/
def threeWinsMs : List Match :=
  [mkMatch 1 1 11 10 1, mkMatch 2 2 11 10 1, mkMatch 3 3 11 10 1]

/-- Match set giving player 1 two one-point wins and one loss by two: scores
1.1, 1.1 and -1.0 * (1 + max(0.2, 0.5)) = -1.5, average 0.7/3 in the dead
band, so the suggested target equals the current rating. -/
def deadBandMs : List Match :=
  [mkMatch 1 1 11 10 1, mkMatch 2 2 11 10 1, mkMatch 3 3 10 12 2]

/-- One-point team-A win number `k` between teams (1,2) and (3,4), used by the
rating-drift trace. -/
def driftMatch (k : Nat) : Match := mkMatch k (Int.ofNat k) 11 10 1

/-- Match sets after each of the six creations of the rating-drift trace. -/
def driftMs (k : Nat) : List Match := (List.range k).map (fun j => driftMatch (j + 1))

/-- Store states of the rating-drift trace: `driftState k` is the player table
after the `k`-th match creation ran `checkForSkillLevelUpdates`. -/
def driftState : Nat → List Player
  | 0 => exampleDb
  | k + 1 => checkForSkillLevelUpdates (driftState k) (driftMs (k + 1)) (k + 1)

/-- Match set after the edit event of the rating-drift trace: the sixth match
is edited to a 0:15 team-B win, with the route recomputing `winnerId`. -/
def driftEditedMs : List Match :=
  (driftMs 5) ++ [mkMatch 6 6 0 15 (determineWinnerId 0 15)]

theorem commitFn_id (s : List Player) (ms : List Match) (now : Nat) (p : Player) :
    (commitFn s ms now p).id = p.id := by
  unfold commitFn
  cases decideUpdateFor s ms p <;> rfl

theorem commitFn_isActive (s : List Player) (ms : List Match) (now : Nat) (p : Player) :
    (commitFn s ms now p).isActive = p.isActive := by
  unfold commitFn
  cases decideUpdateFor s ms p <;> rfl

theorem eq_of_mem_of_id_eq {db : List Player} (h : (db.map Player.id).Nodup)
    {p q : Player} (hp : p ∈ db) (hq : q ∈ db) (hid : p.id = q.id) : p = q :=
  List.inj_on_of_nodup_map h hp hq hid

theorem find?_id_eq_none {db : List Player} {pid : Nat}
    (h : ∀ p ∈ db, p.id ≠ pid) : db.find? (fun p => p.id == pid) = none := by
  rw [List.find?_eq_none]
  intro p hp
  simpa using h p hp

theorem findById_of_mem {db : List Player} (h : (db.map Player.id).Nodup)
    {p : Player} (hp : p ∈ db) : findById db p.id = some p := by
  induction db with
  | nil => cases hp
  | cons a t ih =>
    rcases List.mem_cons.mp hp with rfl | hpt
    · simp [findById]
    · have hne : a.id ≠ p.id := by
        intro hEq
        have : a.id ∈ t.map Player.id := hEq ▸ List.mem_map_of_mem Player.id hpt
        exact (List.nodup_cons.mp h).1 this
      have ht := (List.nodup_cons.mp h).2
      simp only [findById, List.find?_cons]
      rw [show (a.id == p.id) = false from beq_eq_false_iff_ne.mpr hne]
      exact ih ht hpt

theorem foldl_updateById (g : Player → Bool) (s : Player → Player → Player)
    (hid : ∀ p q, (s p q).id = q.id) :
    ∀ (order cur : List Player), (order.map Player.id).Nodup →
      order.foldl
        (fun c p => if g p then c.map (fun q => if q.id == p.id then s p q else q) else c) cur
        = cur.map (fun q =>
            match order.find? (fun p => p.id == q.id) with
            | some p => if g p then s p q else q
            | none => q) := by
  intro order
  induction order with
  | nil =>
    intro cur _
    simp [List.find?_nil]
  | cons p0 rest ih =>
    intro cur h
    have hrest : (rest.map Player.id).Nodup := (List.nodup_cons.mp h).2
    have hnotin : p0.id ∉ rest.map Player.id := (List.nodup_cons.mp h).1
    have hfind : rest.find? (fun p => p.id == p0.id) = none := by
      apply find?_id_eq_none
      intro p hp hEq
      exact hnotin (hEq ▸ List.mem_map_of_mem Player.id hp)
    by_cases hg : g p0 = true
    · simp only [List.foldl_cons, if_pos hg]
      rw [ih (cur.map (fun q => if q.id == p0.id then s p0 q else q)) hrest, List.map_map]
      apply List.map_congr_left
      intro q _
      by_cases hq : q.id = p0.id
      · have hbq : (q.id == p0.id) = true := beq_iff_eq.mpr hq
        have hbp : (p0.id == q.id) = true := beq_iff_eq.mpr hq.symm
        simp only [Function.comp_apply, hbq, if_pos, List.find?_cons, hbp]
        have : (s p0 q).id = q.id := hid p0 q
        rw [show rest.find? (fun p => p.id == (s p0 q).id) = none by rw [this, hq]; exact hfind]
        simp [hg]
      · have hbq : (q.id == p0.id) = false := beq_eq_false_iff_ne.mpr hq
        have hbp : (p0.id == q.id) = false := beq_eq_false_iff_ne.mpr (Ne.symm hq)
        simp only [Function.comp_apply, hbq, if_neg, List.find?_cons, hbp]
        rfl
    · simp only [List.foldl_cons, if_neg hg]
      rw [ih cur hrest]
      apply List.map_congr_left
      intro q _
      by_cases hq : q.id = p0.id
      · have hbp : (p0.id == q.id) = true := beq_iff_eq.mpr hq.symm
        simp only [List.find?_cons, hbp]
        rw [show rest.find? (fun p => p.id == q.id) = none by rw [hq]; exact hfind]
        simp [hg]
      · have hbp : (p0.id == q.id) = false := beq_eq_false_iff_ne.mpr (Ne.symm hq)
        simp only [List.find?_cons, hbp]

theorem foldl_checkStep_closed (s : List Player) (ms : List Match) (now : Nat) :
    ∀ (order cur : List Player), (cur.map Player.id).Nodup →
      (order.map Player.id).Nodup → (∀ p ∈ order, p ∈ cur) →
      order.foldl (checkStep s ms now) cur
        = cur.map (fun q =>
            if q.id ∈ order.map Player.id then commitFn s ms now q else q) := by
  intro order
  induction order with
  | nil =>
    intro cur _ _ _
    simp
  | cons p0 rest ih =>
    intro cur hcur h hsub
    have hrest : (rest.map Player.id).Nodup := (List.nodup_cons.mp h).2
    have hnotin : p0.id ∉ rest.map Player.id := (List.nodup_cons.mp h).1
    have hp0cur : p0 ∈ cur := hsub p0 (List.mem_cons_self p0 rest)
    simp only [List.foldl_cons]
    cases hd : decideUpdateFor s ms p0 with
    | none =>
      have hstep : checkStep s ms now cur p0 = cur := by
        unfold checkStep
        rw [hd]
      rw [hstep, ih cur hcur hrest (fun p hp => hsub p (List.mem_cons_of_mem p0 hp))]
      apply List.map_congr_left
      intro q hq
      by_cases hqid : q.id = p0.id
      · have hqp : q = p0 := eq_of_mem_of_id_eq hcur hq hp0cur hqid
        have hcm : commitFn s ms now q = q := by
          unfold commitFn
          rw [hqp, hd]
        have hnot : q.id ∉ rest.map Player.id := by rw [hqid]; exact hnotin
        have hin : q.id ∈ (p0 :: rest).map Player.id := by
          simp [hqid]
        rw [if_neg hnot, if_pos hin, hcm]
      · have : (q.id ∈ (p0 :: rest).map Player.id) ↔ (q.id ∈ rest.map Player.id) := by
          simp [hqid]
        by_cases hin : q.id ∈ rest.map Player.id
        · rw [if_pos hin, if_pos (this.mpr hin)]
        · rw [if_neg hin, if_neg (fun hmem => hin (this.mp hmem))]
    | some lvl =>
      have hfind : findById cur p0.id = some p0 := findById_of_mem hcur hp0cur
      have hstep : checkStep s ms now cur p0
          = cur.map (fun q =>
              if q.id == p0.id then
                { q with previousSkillLevel := some p0.skillLevel,
                         skillLevel := clampedLevel p0.skillLevel lvl,
                         lastSkillUpdate := some now }
              else q) := by
        unfold checkStep
        rw [hd]
        unfold updatePlayerSkillLevel
        rw [hfind]
      rw [hstep]
      set u : Player → Player := fun q =>
        if q.id == p0.id then
          { q with previousSkillLevel := some p0.skillLevel,
                   skillLevel := clampedLevel p0.skillLevel lvl,
                   lastSkillUpdate := some now }
        else q with hu
      have huid : ∀ q, (u q).id = q.id := by
        intro q
        rw [hu]
        by_cases hq : q.id = p0.id
        · simp [beq_iff_eq.mpr hq]
        · simp [beq_eq_false_iff_ne.mpr hq]
      have hids : (cur.map u).map Player.id = cur.map Player.id := by
        rw [List.map_map]
        exact List.map_congr_left (fun q _ => huid q)
    -- the updated table keeps the same ids, so the induction hypothesis applies
      have hcur' : ((cur.map u).map Player.id).Nodup := by rw [hids]; exact hcur
      have hsub' : ∀ p ∈ rest, p ∈ cur.map u := by
        intro r hr
        have hrcur : r ∈ cur := hsub r (List.mem_cons_of_mem p0 hr)
        have hrid : r.id ≠ p0.id := by
          intro hEq
          exact hnotin (hEq ▸ List.mem_map_of_mem Player.id hr)
        have hur : u r = r := by
          rw [hu]
          simp [beq_eq_false_iff_ne.mpr hrid]
        exact hur ▸ List.mem_map_of_mem u hrcur
      rw [ih (cur.map u) hcur' hrest hsub', List.map_map]
      apply List.map_congr_left
      intro q hq
      by_cases hqid : q.id = p0.id
      · have hqp : q = p0 := eq_of_mem_of_id_eq hcur hq hp0cur hqid
        have huq : u q = { q with previousSkillLevel := some p0.skillLevel,
                                  skillLevel := clampedLevel p0.skillLevel lvl,
                                  lastSkillUpdate := some now } := by
          rw [hu]
          simp [beq_iff_eq.mpr hqid]
        have hcm : commitFn s ms now q
            = { q with previousSkillLevel := some p0.skillLevel,
                       skillLevel := clampedLevel p0.skillLevel lvl,
                       lastSkillUpdate := some now } := by
          unfold commitFn
          rw [hqp, hd]
        have hnot : (u q).id ∉ rest.map Player.id := by
          rw [huid q, hqid]
          exact hnotin
        have hin : q.id ∈ (p0 :: rest).map Player.id := by simp [hqid]
        simp only [Function.comp_apply]
        rw [if_neg hnot, if_pos hin, hcm, huq]
      · have huq : u q = q := by
          rw [hu]
          simp [beq_eq_false_iff_ne.mpr hqid]
        have : (q.id ∈ (p0 :: rest).map Player.id) ↔ (q.id ∈ rest.map Player.id) := by
          simp [hqid]
        simp only [Function.comp_apply, huq]
        by_cases hin : q.id ∈ rest.map Player.id
        · rw [if_pos hin, if_pos (this.mpr hin)]
        · rw [if_neg hin, if_neg (fun hmem => hin (this.mp hmem))]

theorem getAllPlayers_id_nodup {db : List Player} (h : (db.map Player.id).Nodup) :
    ((getAllPlayers db).map Player.id).Nodup :=
  ((List.filter_sublist db).map Player.id).nodup h

theorem mem_getAllPlayers_ids_iff {db : List Player} (h : (db.map Player.id).Nodup)
    {q : Player} (hq : q ∈ db) :
    q.id ∈ (getAllPlayers db).map Player.id ↔ q.isActive = true := by
  constructor
  · intro hmem
    obtain ⟨p, hp, hpid⟩ := List.mem_map.mp hmem
    have hpdb : p ∈ db := List.mem_of_mem_filter hp
    have : p = q := eq_of_mem_of_id_eq h hpdb hq hpid
    subst this
    exact List.of_mem_filter hp
  · intro hact
    exact List.mem_map_of_mem Player.id (List.mem_filter.mpr ⟨hq, hact⟩)

theorem checkForSkillLevelUpdatesOrder_eq (db : List Player) (ms : List Match)
    (now : Nat) (order : List Player) (hdb : (db.map Player.id).Nodup)
    (ho : (order.map Player.id).Nodup) (hsub : ∀ p ∈ order, p ∈ db) :
    checkForSkillLevelUpdatesOrder db ms now order
      = db.map (fun q =>
          if q.id ∈ order.map Player.id then commitFn (getAllPlayers db) ms now q else q) :=
  foldl_checkStep_closed (getAllPlayers db) ms now order db hdb ho hsub

theorem checkForSkillLevelUpdates_eq (db : List Player) (ms : List Match) (now : Nat)
    (hdb : (db.map Player.id).Nodup) :
    checkForSkillLevelUpdates db ms now
      = db.map (fun q =>
          if q.isActive = true then commitFn (getAllPlayers db) ms now q else q) := by
  unfold checkForSkillLevelUpdates
  rw [checkForSkillLevelUpdatesOrder_eq db ms now (getAllPlayers db) hdb
    (getAllPlayers_id_nodup hdb) (fun p hp => List.mem_of_mem_filter hp)]
  apply List.map_congr_left
  intro q hq
  by_cases hact : q.isActive = true
  · rw [if_pos ((mem_getAllPlayers_ids_iff hdb hq).mpr hact), if_pos hact]
  · rw [if_neg (fun hmem => hact ((mem_getAllPlayers_ids_iff hdb hq).mp hmem)), if_neg hact]

theorem foldl_setOriginalIfMissing_eq (order cur : List Player)
    (h : (order.map Player.id).Nodup) :
    order.foldl setOriginalIfMissing cur
      = cur.map (fun q =>
          match order.find? (fun p => p.id == q.id) with
          | some p =>
            if p.originalSkillLevel.isNone then
              { q with originalSkillLevel := some p.skillLevel }
            else q
          | none => q) := by
  have := foldl_updateById (fun p => p.originalSkillLevel.isNone)
    (fun p q => { q with originalSkillLevel := some p.skillLevel })
    (fun _ _ => rfl) order cur h
  simpa only [setOriginalIfMissing] using this

theorem foldl_resetToOriginal_eq (order cur : List Player)
    (h : (order.map Player.id).Nodup) :
    order.foldl resetToOriginal cur
      = cur.map (fun q =>
          match order.find? (fun p => p.id == q.id) with
          | some p =>
            { q with skillLevel := jsOrLevel p.originalSkillLevel p.skillLevel,
                     previousSkillLevel := none,
                     lastSkillUpdate := none }
          | none => q) := by
  have := foldl_updateById (fun _ => true)
    (fun p q =>
      { q with skillLevel := jsOrLevel p.originalSkillLevel p.skillLevel,
               previousSkillLevel := none,
               lastSkillUpdate := none })
    (fun _ _ => rfl) order cur h
  simp only [if_true] at this
  rw [show (fun (c : List Player) (p : Player) =>
      c.map (fun q =>
        if q.id == p.id then
          { q with skillLevel := jsOrLevel p.originalSkillLevel p.skillLevel,
                   previousSkillLevel := none,
                   lastSkillUpdate := none }
        else q)) = resetToOriginal from rfl] at this
  exact this

theorem find?_getAllPlayers {db : List Player} (hdb : (db.map Player.id).Nodup)
    {q : Player} (hq : q ∈ db) :
    (getAllPlayers db).find? (fun p => p.id == q.id)
      = if q.isActive = true then some q else none := by
  by_cases hact : q.isActive = true
  · rw [if_pos hact]
    exact findById_of_mem (getAllPlayers_id_nodup hdb) (List.mem_filter.mpr ⟨hq, hact⟩)
  · rw [if_neg hact]
    apply find?_id_eq_none
    intro p hp hEq
    have hpdb : p ∈ db := List.mem_of_mem_filter hp
    have : p = q := eq_of_mem_of_id_eq hdb hpdb hq hEq
    exact hact (this ▸ List.of_mem_filter hp)

theorem resetPass_eq (db : List Player) (hdb : (db.map Player.id).Nodup) :
    resetPass db = db.map (fun q => if q.isActive = true then resetRecord q else q) := by
  show List.foldl resetToOriginal (List.foldl setOriginalIfMissing db (getAllPlayers db))
      (getAllPlayers db)
    = db.map (fun q => if q.isActive = true then resetRecord q else q)
  rw [foldl_setOriginalIfMissing_eq (getAllPlayers db) db (getAllPlayers_id_nodup hdb),
    foldl_resetToOriginal_eq (getAllPlayers db) _ (getAllPlayers_id_nodup hdb),
    List.map_map]
  apply List.map_congr_left
  intro q hq
  simp only [Function.comp_apply]
  by_cases hact : q.isActive = true
  · rw [find?_getAllPlayers hdb hq, if_pos hact]
    cases horig : q.originalSkillLevel with
    | none =>
      have hid : ({ q with originalSkillLevel := some q.skillLevel } : Player).id = q.id := rfl
      simp only [horig, Option.isNone_none, if_pos, if_true]
      have hfind : (getAllPlayers db).find?
          (fun p => p.id == ({ q with originalSkillLevel := some q.skillLevel } : Player).id)
          = if q.isActive = true then some q else none := by
        rw [hid]
        exact find?_getAllPlayers hdb hq
      rw [hfind, if_pos hact]
      simp [resetRecord, jsOrLevel, horig, hact]
    | some v =>
      simp only [horig, Option.isNone_some, Bool.false_eq_true, if_false]
      rw [find?_getAllPlayers hdb hq, if_pos hact]
      simp [resetRecord, jsOrLevel, horig, hact]
  · rw [find?_getAllPlayers hdb hq, if_neg hact, if_neg hact]
    rw [find?_getAllPlayers hdb hq, if_neg hact]

theorem commitFn_name (s : List Player) (ms : List Match) (now : Nat) (p : Player) :
    (commitFn s ms now p).name = p.name := by
  unfold commitFn
  cases decideUpdateFor s ms p <;> rfl

theorem commitFn_orig (s : List Player) (ms : List Match) (now : Nat) (p : Player) :
    (commitFn s ms now p).originalSkillLevel = p.originalSkillLevel := by
  unfold commitFn
  cases decideUpdateFor s ms p <;> rfl

theorem commitFn_skillLevel_time (s : List Player) (ms : List Match) (t1 t2 : Nat)
    (p : Player) : (commitFn s ms t1 p).skillLevel = (commitFn s ms t2 p).skillLevel := by
  unfold commitFn
  cases decideUpdateFor s ms p <;> rfl

theorem commitFn_of_none {s : List Player} {ms : List Match} {now : Nat} {p : Player}
    (h : decideUpdateFor s ms p = none) : commitFn s ms now p = p := by
  unfold commitFn
  rw [h]

theorem clampedLevel_bounds (cur lvl : Int) (h1 : 1 ≤ cur) (h2 : cur ≤ 10) :
    (1 ≤ clampedLevel cur lvl ∧ clampedLevel cur lvl ≤ 10) ∧
      (clampedLevel cur lvl - cur).natAbs ≤ 1 := by
  unfold clampedLevel
  dsimp only
  split_ifs <;> omega

theorem commitFn_skill_bounds (s : List Player) (ms : List Match) (now : Nat)
    (p : Player) (h1 : 1 ≤ p.skillLevel) (h2 : p.skillLevel ≤ 10) :
    (1 ≤ (commitFn s ms now p).skillLevel ∧ (commitFn s ms now p).skillLevel ≤ 10) ∧
      ((commitFn s ms now p).skillLevel - p.skillLevel).natAbs ≤ 1 := by
  unfold commitFn
  cases decideUpdateFor s ms p with
  | none => dsimp only; exact ⟨⟨h1, h2⟩, by omega⟩
  | some lvl => dsimp only; exact clampedLevel_bounds p.skillLevel lvl h1 h2

theorem decideUpdateFor_eq_none {allPlayers : List Player} {ms : List Match}
    {player : Player} (h : (playerMatchesOf ms player.id).length < 5) :
    decideUpdateFor allPlayers ms player = none := by
  unfold decideUpdateFor
  by_cases h3 : (playerMatchesOf ms player.id).length < 3
  · rw [if_pos h3]
  · rw [if_neg h3]
    have h5 : ¬ (playerMatchesOf ms player.id).length ≥ 5 := by omega
    simp [h5]

theorem findById_check_unchanged (db : List Player) (ms : List Match) (now : Nat)
    (p : Player) (hdb : (db.map Player.id).Nodup) (hp : p ∈ db)
    (h5 : (playerMatchesOf ms p.id).length < 5) :
    findById (checkForSkillLevelUpdates db ms now) p.id = some p := by
  rw [checkForSkillLevelUpdates_eq db ms now hdb]
  unfold findById
  rw [List.find?_map]
  have hpred : ((fun q : Player => q.id == p.id) ∘
      (fun q : Player =>
        if q.isActive = true then commitFn (getAllPlayers db) ms now q else q))
      = fun q : Player => q.id == p.id := by
    funext q
    by_cases hact : q.isActive = true
    · simp [hact, commitFn_id]
    · simp [hact]
  rw [hpred]
  have hfind : db.find? (fun q : Player => q.id == p.id) = some p := findById_of_mem hdb hp
  rw [hfind]
  by_cases hact : p.isActive = true
  · simp [hact, commitFn_of_none (decideUpdateFor_eq_none h5)]
  · simp [hact]

theorem resetRecord_id (q : Player) : (resetRecord q).id = q.id := rfl

theorem resetPass_ids (db : List Player) (hdb : (db.map Player.id).Nodup) :
    (resetPass db).map Player.id = db.map Player.id := by
  rw [resetPass_eq db hdb, List.map_map]
  apply List.map_congr_left
  intro q _
  by_cases hact : q.isActive = true <;> simp [hact, resetRecord_id]

theorem check_ids (db : List Player) (ms : List Match) (now : Nat)
    (hdb : (db.map Player.id).Nodup) :
    (checkForSkillLevelUpdates db ms now).map Player.id = db.map Player.id := by
  rw [checkForSkillLevelUpdates_eq db ms now hdb, List.map_map]
  apply List.map_congr_left
  intro q _
  by_cases hact : q.isActive = true <;> simp [hact, commitFn_id]

theorem ratingsOf_check_time (db : List Player) (ms : List Match) (t1 t2 : Nat)
    (hdb : (db.map Player.id).Nodup) :
    ratingsOf (checkForSkillLevelUpdates db ms t1)
      = ratingsOf (checkForSkillLevelUpdates db ms t2) := by
  unfold ratingsOf
  rw [checkForSkillLevelUpdates_eq db ms t1 hdb, checkForSkillLevelUpdates_eq db ms t2 hdb,
    List.map_map, List.map_map]
  apply List.map_congr_left
  intro q _
  by_cases hact : q.isActive = true
  · simp only [Function.comp_apply, if_pos hact]
    rw [Prod.mk.injEq]
    exact ⟨by rw [commitFn_id, commitFn_id], commitFn_skillLevel_time _ ms t1 t2 q⟩
  · simp [hact]

theorem resetRecord_fixed {q : Player} {o : Int} (horig : q.originalSkillLevel = some o)
    (hne : o ≠ 0) (hskill : q.skillLevel = o) (hprev : q.previousSkillLevel = none)
    (hlast : q.lastSkillUpdate = none) : resetRecord q = q := by
  ext <;> simp [resetRecord, jsOrLevel, horig, hne, hskill, hprev, hlast]

theorem reset_commit_reset (s : List Player) (ms : List Match) (t : Nat)
    {p : Player} {o : Int} (horig : p.originalSkillLevel = some o) (hne : o ≠ 0)
    (hskill : p.skillLevel = o) (hprev : p.previousSkillLevel = none)
    (hlast : p.lastSkillUpdate = none) :
    resetRecord (commitFn s ms t p) = p := by
  unfold commitFn
  cases decideUpdateFor s ms p with
  | none =>
    dsimp only
    exact resetRecord_fixed horig hne hskill hprev hlast
  | some lvl =>
    dsimp only
    have : resetRecord
        { p with previousSkillLevel := some p.skillLevel,
                 skillLevel := clampedLevel p.skillLevel lvl,
                 lastSkillUpdate := some t } =
        { p with originalSkillLevel := some o, skillLevel := o,
                 previousSkillLevel := none, lastSkillUpdate := none } := by
      ext <;> simp [resetRecord, jsOrLevel, horig, hne]
    rw [this]
    ext <;> simp [horig, hskill, hprev, hlast]

theorem resetPass_check_resetPass (db : List Player) (ms : List Match) (t : Nat)
    (hdb : (db.map Player.id).Nodup)
    (hb : ∀ p ∈ db, 1 ≤ p.skillLevel ∧ p.skillLevel ≤ 10 ∧
      1 ≤ p.originalSkillLevel.getD p.skillLevel ∧
      p.originalSkillLevel.getD p.skillLevel ≤ 10) :
    resetPass (checkForSkillLevelUpdates (resetPass db) ms t) = resetPass db := by
  have hAid : ((resetPass db).map Player.id).Nodup := by
    rw [resetPass_ids db hdb]; exact hdb
  have hCid : ((checkForSkillLevelUpdates (resetPass db) ms t).map Player.id).Nodup := by
    rw [check_ids (resetPass db) ms t hAid]
    rw [resetPass_ids db hdb]; exact hdb
  rw [resetPass_eq _ hCid, checkForSkillLevelUpdates_eq (resetPass db) ms t hAid,
    resetPass_eq db hdb, List.map_map, List.map_map]
  apply List.map_congr_left
  intro p hp
  obtain ⟨hs1, hs2, ho1, ho2⟩ := hb p hp
  by_cases hact : p.isActive = true
  · have hro : (resetRecord p).originalSkillLevel
        = some (p.originalSkillLevel.getD p.skillLevel) := rfl
    have hrs : (resetRecord p).skillLevel = p.originalSkillLevel.getD p.skillLevel := by
      cases horig : p.originalSkillLevel with
      | none => simp [resetRecord, jsOrLevel, horig]
      | some v =>
        have hv : v ≠ 0 := by
          have : p.originalSkillLevel.getD p.skillLevel = v := by rw [horig]; rfl
          omega
        simp [resetRecord, jsOrLevel, horig, hv]
    have hract : (resetRecord p).isActive = true := hact
    have hne : p.originalSkillLevel.getD p.skillLevel ≠ 0 := by omega
    simp only [Function.comp_apply, if_pos hact, if_pos hract]
    rw [if_pos (show (commitFn _ ms t (resetRecord p)).isActive = true by
      rw [commitFn_isActive]; exact hract)]
    exact reset_commit_reset _ ms t hro hne hrs rfl rfl
  · simp only [Function.comp_apply, if_neg hact]

theorem resetRecord_skillLevel {p : Player}
    (hne : p.originalSkillLevel.getD p.skillLevel ≠ 0) :
    (resetRecord p).skillLevel = p.originalSkillLevel.getD p.skillLevel := by
  cases horig : p.originalSkillLevel with
  | none => simp [resetRecord, jsOrLevel, horig]
  | some v =>
    have hv : v ≠ 0 := by
      have : p.originalSkillLevel.getD p.skillLevel = v := by rw [horig]; rfl
      omega
    simp [resetRecord, jsOrLevel, horig, hv]

/-- C1 (amended): when the stored ratings and original ratings lie in [1,10]
and player ids are unique, a match-creation pass (`checkForSkillLevelUpdates`)
leaves every rating in [1,10] and moves it by at most 1; an edit/delete
recomputation (`recalculateAllSkillLevels`) also leaves every active player's
rating in [1,10], but the at-most-1 step is relative to the player's
`originalSkillLevel` (the reset baseline), not to the pre-event rating;
inactive players are untouched. -/
theorem skill_bounds_per_event (db : List Player) (ms : List Match) (now : Nat)
    (hdb : (db.map Player.id).Nodup)
    (hb : ∀ p ∈ db, 1 ≤ p.skillLevel ∧ p.skillLevel ≤ 10 ∧
      1 ≤ p.originalSkillLevel.getD p.skillLevel ∧
      p.originalSkillLevel.getD p.skillLevel ≤ 10) :
    List.Forall₂ (fun p q => (1 ≤ q.skillLevel ∧ q.skillLevel ≤ 10) ∧
        (q.skillLevel - p.skillLevel).natAbs ≤ 1)
      db (checkForSkillLevelUpdates db ms now) ∧
    List.Forall₂ (fun p q =>
        (p.isActive = true → (1 ≤ q.skillLevel ∧ q.skillLevel ≤ 10) ∧
          (q.skillLevel - p.originalSkillLevel.getD p.skillLevel).natAbs ≤ 1) ∧
        (p.isActive = false → q = p))
      db (recalculateAllSkillLevels db ms now) := by
  constructor
  · rw [checkForSkillLevelUpdates_eq db ms now hdb, List.forall₂_map_right_iff,
      List.forall₂_same]
    intro p hp
    obtain ⟨h1, h2, _, _⟩ := hb p hp
    by_cases hact : p.isActive = true
    · rw [if_pos hact]
      exact commitFn_skill_bounds _ ms now p h1 h2
    · rw [if_neg hact]
      exact ⟨⟨h1, h2⟩, by omega⟩
  · have hAid : ((resetPass db).map Player.id).Nodup := by
      rw [resetPass_ids db hdb]; exact hdb
    unfold recalculateAllSkillLevels
    rw [checkForSkillLevelUpdates_eq (resetPass db) ms now hAid]
    generalize getAllPlayers (resetPass db) = S
    rw [resetPass_eq db hdb, List.map_map, List.forall₂_map_right_iff, List.forall₂_same]
    intro p hp
    obtain ⟨h1, h2, ho1, ho2⟩ := hb p hp
    by_cases hact : p.isActive = true
    · have hne : p.originalSkillLevel.getD p.skillLevel ≠ 0 := by omega
      have hrs : (resetRecord p).skillLevel = p.originalSkillLevel.getD p.skillLevel :=
        resetRecord_skillLevel hne
      have hract : (resetRecord p).isActive = true := hact
      constructor
      · intro _
        simp only [Function.comp_apply, if_pos hact, if_pos hract]
        have := commitFn_skill_bounds S ms now (resetRecord p)
          (by rw [hrs]; exact ho1) (by rw [hrs]; exact ho2)
        rw [hrs] at this
        exact this
      · intro hfalse
        rw [hact] at hfalse
        cases hfalse
    · constructor
      · intro htrue
        exact absurd htrue hact
      · intro _
        simp only [Function.comp_apply, if_neg hact]

/-- C1 (witness): the amended statement applied to the §8 example store. -/
theorem skill_bounds_per_event_witness :
    List.Forall₂ (fun p q => (1 ≤ q.skillLevel ∧ q.skillLevel ≤ 10) ∧
        (q.skillLevel - p.skillLevel).natAbs ≤ 1)
      exampleDb (checkForSkillLevelUpdates exampleDb exampleMs 0) ∧
    List.Forall₂ (fun p q =>
        (p.isActive = true → (1 ≤ q.skillLevel ∧ q.skillLevel ≤ 10) ∧
          (q.skillLevel - p.originalSkillLevel.getD p.skillLevel).natAbs ≤ 1) ∧
        (p.isActive = false → q = p))
      exampleDb (recalculateAllSkillLevels exampleDb exampleMs 0) :=
  skill_bounds_per_event exampleDb exampleMs 0 (by with_unfolding_all decide)
    (by with_unfolding_all decide)

/-- C1 (counterexample): a reachable trace violating the claim as stated.
Six one-point wins are created one at a time (each creation running the
scoring pass), after which player 1's stored rating is 7; the sixth match is
then edited into a 0:15 loss, and the triggered `recalculateAllSkillLevels`
event drops the rating from 7 to 5 — a change of 2 in a single recomputation
event. -/
theorem skill_step_violated_on_edit :
    (findById (driftState 6) 1).map Player.skillLevel = some 7 ∧
    (findById (recalculateAllSkillLevels (driftState 6) driftEditedMs 7) 1).map
      Player.skillLevel = some 5 ∧
    ((7 : Int) - 5).natAbs > 1 := by
  with_unfolding_all decide

/-- C2: the scoring pass selects the analysis window and mode purely from the
player's total match count.  With fewer than 3 matches nothing is suggested
(neither the suggestions endpoint nor the stats assessment sets a suggestion)
and the stored record is untouched; with 3 or 4 matches exactly the 3 most
recent matches are analyzed and the stored record is still untouched; with 5
or more matches exactly the 5 most recent matches are analyzed. -/
theorem window_mode_selection (db : List Player) (ms : List Match) (now : Nat)
    (p : Player) (hdb : (db.map Player.id).Nodup) (hp : p ∈ db) :
    ((playerMatchesOf ms p.id).length < 3 →
      suggestionFor (getAllPlayers db) ms p = none ∧
      (playerStatsFor (getAllPlayers db) ms p).suggestedSkillLevel = none ∧
      (playerStatsFor (getAllPlayers db) ms p).suggestion = none ∧
      (playerStatsFor (getAllPlayers db) ms p).suggestionReason = none ∧
      findById (checkForSkillLevelUpdates db ms now) p.id = some p) ∧
    (3 ≤ (playerMatchesOf ms p.id).length → (playerMatchesOf ms p.id).length ≤ 4 →
      analysisWindow ms p.id = (playerMatchesOf ms p.id).take 3 ∧
      (analysisWindow ms p.id).length = 3 ∧
      findById (checkForSkillLevelUpdates db ms now) p.id = some p) ∧
    (5 ≤ (playerMatchesOf ms p.id).length →
      analysisWindow ms p.id = (playerMatchesOf ms p.id).take 5 ∧
      (analysisWindow ms p.id).length = 5) := by
  refine ⟨?_, ?_, ?_⟩
  · intro h3
    have hrec : ((playerMatchesOf ms p.id).take 3).length < 3 := by
      rw [List.length_take]
      omega
    refine ⟨?_, ?_, ?_, ?_, findById_check_unchanged db ms now p hdb hp (by omega)⟩
    · unfold suggestionFor
      rw [if_pos h3]
    · unfold playerStatsFor
      simp only [if_neg (show ¬ ((playerMatchesOf ms p.id).take 3).length ≥ 3 by omega)]
    · unfold playerStatsFor
      simp only [if_neg (show ¬ ((playerMatchesOf ms p.id).take 3).length ≥ 3 by omega)]
    · unfold playerStatsFor
      simp only [if_neg (show ¬ ((playerMatchesOf ms p.id).take 3).length ≥ 3 by omega)]
  · intro h3 h4
    have hta : matchesToAnalyzeFor (playerMatchesOf ms p.id).length = 3 := by
      unfold matchesToAnalyzeFor
      rw [if_neg (by omega)]
      omega
    refine ⟨?_, ?_, findById_check_unchanged db ms now p hdb hp (by omega)⟩
    · unfold analysisWindow
      dsimp only
      rw [hta]
    · unfold analysisWindow
      dsimp only
      rw [hta, List.length_take]
      omega
  · intro h5
    have hta : matchesToAnalyzeFor (playerMatchesOf ms p.id).length = 5 := by
      unfold matchesToAnalyzeFor
      rw [if_pos (by omega)]
    refine ⟨?_, ?_⟩
    · unfold analysisWindow
      dsimp only
      rw [hta]
    · unfold analysisWindow
      dsimp only
      rw [hta, List.length_take]
      omega

/-- C2 (witness): the selection applied to a player with exactly three
matches. -/
theorem window_mode_selection_witness :
    (((playerMatchesOf threeWinsMs 1).length < 3 →
      suggestionFor (getAllPlayers exampleDb) threeWinsMs (mkPlayer 1 5) = none ∧
      (playerStatsFor (getAllPlayers exampleDb) threeWinsMs (mkPlayer 1 5)).suggestedSkillLevel = none ∧
      (playerStatsFor (getAllPlayers exampleDb) threeWinsMs (mkPlayer 1 5)).suggestion = none ∧
      (playerStatsFor (getAllPlayers exampleDb) threeWinsMs (mkPlayer 1 5)).suggestionReason = none ∧
      findById (checkForSkillLevelUpdates exampleDb threeWinsMs 0) 1 = some (mkPlayer 1 5)) ∧
    (3 ≤ (playerMatchesOf threeWinsMs 1).length → (playerMatchesOf threeWinsMs 1).length ≤ 4 →
      analysisWindow threeWinsMs 1 = (playerMatchesOf threeWinsMs 1).take 3 ∧
      (analysisWindow threeWinsMs 1).length = 3 ∧
      findById (checkForSkillLevelUpdates exampleDb threeWinsMs 0) 1 = some (mkPlayer 1 5)) ∧
    (5 ≤ (playerMatchesOf threeWinsMs 1).length →
      analysisWindow threeWinsMs 1 = (playerMatchesOf threeWinsMs 1).take 5 ∧
      (analysisWindow threeWinsMs 1).length = 5)) ∧
    3 ≤ (playerMatchesOf threeWinsMs 1).length ∧ (playerMatchesOf threeWinsMs 1).length ≤ 4 :=
  ⟨window_mode_selection exampleDb threeWinsMs 0 (mkPlayer 1 5)
      (by with_unfolding_all decide) (by with_unfolding_all decide),
    by with_unfolding_all decide, by with_unfolding_all decide⟩

/-- C3: the per-match score computed by the rating engine coincides with the
formula exactly as the spec words it (win and loss branches with rating-gap
factors and point-margin factor), and on a non-empty window the average
performance is the sum of the per-match scores divided by the window size. -/
theorem per_match_score_formula (snap : List Player) (ms : List Match)
    (p : Player) (m : Match) :
    matchScore snap p m = matchScoreSpec snap p m ∧
    (0 < (analysisWindow ms p.id).length →
      avgPerformanceFor snap ms p
        = ((analysisWindow ms p.id).map (matchScore snap p)).sum
            / ((analysisWindow ms p.id).length : ℚ)) := by
  constructor
  · unfold matchScore matchScoreSpec winScoreSpec lossScoreSpec ratingGapOf
    dsimp only
    split_ifs <;> ring
  · intro h
    unfold avgPerformanceFor
    dsimp only
    rw [if_pos h]

/-- C3 (witness): the formula evaluated on the §8 example data. -/
theorem per_match_score_formula_witness :
    (matchScore (getAllPlayers exampleDb) (mkPlayer 1 5) (mkMatch 1 1 10 10 2)
      = matchScoreSpec (getAllPlayers exampleDb) (mkPlayer 1 5) (mkMatch 1 1 10 10 2)) ∧
    0 < (analysisWindow exampleMs 1).length ∧
    avgPerformanceFor (getAllPlayers exampleDb) exampleMs (mkPlayer 1 5)
      = ((analysisWindow exampleMs 1).map
          (matchScore (getAllPlayers exampleDb) (mkPlayer 1 5))).sum
          / ((analysisWindow exampleMs 1).length : ℚ) :=
  ⟨(per_match_score_formula (getAllPlayers exampleDb) exampleMs (mkPlayer 1 5)
      (mkMatch 1 1 10 10 2)).1,
    by with_unfolding_all decide,
    (per_match_score_formula (getAllPlayers exampleDb) exampleMs (mkPlayer 1 5)
      (mkMatch 1 1 10 10 2)).2 (by with_unfolding_all decide)⟩

/-- C4 (counterexample): on the spec's own §8 example (player 1 at rating 5,
four wins and one loss against equal-rated opponents, zero point differential
throughout) the engine computes `avgPerformance = 1/2`, not `3/5`: the loss
branch multiplies by `1 + max(|pointDiff| * 0.1, 0.5) = 1.5` even at zero
point differential, so the loss contributes -1.5.  Since 1/2 is not greater
than the 0.5 threshold, no rating change is committed: the stored rating stays
5 instead of becoming 6. -/
theorem example_no_rating_change :
    avgPerformanceFor (getAllPlayers exampleDb) exampleMs (mkPlayer 1 5) = 1/2 ∧
    ¬ avgPerformanceFor (getAllPlayers exampleDb) exampleMs (mkPlayer 1 5) = 3/5 ∧
    (findById (checkForSkillLevelUpdates exampleDb exampleMs 9) 1).map
      Player.skillLevel = some 5 ∧
    ¬ (findById (checkForSkillLevelUpdates exampleDb exampleMs 9) 1).map
      Player.skillLevel = some 6 := by
  with_unfolding_all decide

/-- C4 (amended): in the §8 scenario the per-match scores are four times 1.0
and once -1.5, so `avgPerformance = (4 * 1.0 - 1.5) / 5 = 0.5`, which does not
exceed the 0.5 threshold; the engine therefore commits no change — the rating
remains 5 and `previousRating` is not recorded. -/
theorem example_avg_half_no_commit :
    avgPerformanceFor (getAllPlayers exampleDb) exampleMs (mkPlayer 1 5)
      = (4 * 1 + (-1.5)) / 5 ∧
    ¬ ((4 * 1 + (-1.5) : ℚ) / 5 > 0.5) ∧
    findById (checkForSkillLevelUpdates exampleDb exampleMs 9) 1
      = some (mkPlayer 1 5) ∧
    (findById (checkForSkillLevelUpdates exampleDb exampleMs 9) 1).map
      Player.previousSkillLevel = some none := by
  with_unfolding_all decide

/-- C5 (counterexample): with the subject player rated 5 and a single found
opponent rated 8 (the other opponent record missing), the engine uses 8 as the
average opponent rating — the found opponent's rating alone — not the claimed
mean (8 + 5) / 2 of the found rating and the player's own rating. -/
theorem missing_opponent_not_averaged :
    avgOpponentSkill (getAllPlayers missingOppDb) (mkPlayer 1 5) missingOppMatch = 8 ∧
    ¬ avgOpponentSkill (getAllPlayers missingOppDb) (mkPlayer 1 5) missingOppMatch
      = (8 + 5) / 2 := by
  with_unfolding_all decide

/-- C5 (amended): missing opponent records are skipped, not substituted
per-slot: whenever at least one opponent is found, `avgOpponentSkill` is the
mean of the found opponents' ratings only; the player's own rating is used
only when both opponent records are missing.  The computation is total either
way. -/
theorem missing_opponent_fallback (snap : List Player) (p : Player) (m : Match) :
    (opponentSkillLevels snap m p.id ≠ [] →
      avgOpponentSkill snap p m
        = ((opponentSkillLevels snap m p.id).map intQ).sum
            / ((opponentSkillLevels snap m p.id).length : ℚ)) ∧
    (opponentSkillLevels snap m p.id = [] →
      avgOpponentSkill snap p m = intQ p.skillLevel) := by
  constructor
  · intro h
    unfold avgOpponentSkill
    dsimp only
    rw [if_pos (List.length_pos.mpr h)]
  · intro h
    unfold avgOpponentSkill
    dsimp only
    rw [h]
    simp

/-- C5 (witness): the fallback rule applied to the one-missing-opponent
scenario. -/
theorem missing_opponent_fallback_witness :
    opponentSkillLevels (getAllPlayers missingOppDb) missingOppMatch 1 ≠ [] ∧
    avgOpponentSkill (getAllPlayers missingOppDb) (mkPlayer 1 5) missingOppMatch
      = ((opponentSkillLevels (getAllPlayers missingOppDb) missingOppMatch 1).map intQ).sum
          / ((opponentSkillLevels (getAllPlayers missingOppDb) missingOppMatch 1).length : ℚ) :=
  ⟨by with_unfolding_all decide,
    (missing_opponent_fallback (getAllPlayers missingOppDb) (mkPlayer 1 5)
      missingOppMatch).1 (by with_unfolding_all decide)⟩

/-- C6 (counterexample): the schema accepts the tied score pair (10, 10), and
the routes then store `winnerId = 2` although team B's score is not strictly
higher — so "winnerId is 2 if and only if teamBScore > teamAScore" fails on an
accepted score pair. -/
theorem tie_scores_winner_b :
    insertMatchAcceptsScores 10 10 ∧ determineWinnerId 10 10 = 2 ∧
    ¬ ((10 : Int) < 10) := by
  refine ⟨⟨by omega, by omega⟩, ?_, by omega⟩
  unfold determineWinnerId
  rw [if_neg (by omega)]

/-- C6 (amended): for every accepted score pair, the stored winner is team A
exactly when team A's score is strictly higher, and team B exactly when team
A's score is less than or equal to team B's — so on the tie-free pairs the
winner is the strictly higher-scoring team, but a tie is accepted and recorded
as a team B win. -/
theorem winner_derivation (a b : Int) (h : insertMatchAcceptsScores a b) :
    (determineWinnerId a b = 1 ↔ b < a) ∧ (determineWinnerId a b = 2 ↔ a ≤ b) := by
  unfold determineWinnerId
  by_cases hab : a > b
  · rw [if_pos hab]
    constructor
    · exact ⟨fun _ => hab, fun _ => rfl⟩
    · exact ⟨fun h1 => by omega, fun hle => by omega⟩
  · rw [if_neg hab]
    constructor
    · exact ⟨fun h2 => by omega, fun hlt => by omega⟩
    · exact ⟨fun _ => by omega, fun _ => rfl⟩

/-- C6 (witness): the winner derivation on the accepted pair (3, 2). -/
theorem winner_derivation_witness :
    insertMatchAcceptsScores 3 2 ∧
    ((determineWinnerId 3 2 = 1 ↔ (2 : Int) < 3) ∧ (determineWinnerId 3 2 = 2 ↔ (3 : Int) ≤ 2)) :=
  ⟨by with_unfolding_all decide, winner_derivation 3 2 (by with_unfolding_all decide)⟩

/-- C7: the recompute-from-scratch operation is idempotent.  With unique
player ids and ratings/original ratings inside [1,10], running
`recalculateAllSkillLevels` a second time (at any later timestamp) over the
unchanged match set yields the same stored rating for every player as the
first run: each run resets every active player to `originalSkillLevel`, clears
`previousSkillLevel` and `lastSkillUpdate`, then replays the scoring pass. -/
theorem recalculate_idempotent (db : List Player) (ms : List Match) (t1 t2 : Nat)
    (hdb : (db.map Player.id).Nodup)
    (hb : ∀ p ∈ db, 1 ≤ p.skillLevel ∧ p.skillLevel ≤ 10 ∧
      1 ≤ p.originalSkillLevel.getD p.skillLevel ∧
      p.originalSkillLevel.getD p.skillLevel ≤ 10) :
    ratingsOf (recalculateAllSkillLevels (recalculateAllSkillLevels db ms t1) ms t2)
      = ratingsOf (recalculateAllSkillLevels db ms t1) := by
  have hAid : ((resetPass db).map Player.id).Nodup := by
    rw [resetPass_ids db hdb]; exact hdb
  have key : resetPass (recalculateAllSkillLevels db ms t1) = resetPass db :=
    resetPass_check_resetPass db ms t1 hdb hb
  show ratingsOf (checkForSkillLevelUpdates (resetPass (recalculateAllSkillLevels db ms t1)) ms t2)
    = ratingsOf (recalculateAllSkillLevels db ms t1)
  rw [key]
  exact ratingsOf_check_time (resetPass db) ms t2 t1 hAid

/-- C7 (witness): idempotence on the §8 example store. -/
theorem recalculate_idempotent_witness :
    ratingsOf (recalculateAllSkillLevels
      (recalculateAllSkillLevels exampleDb exampleMs 1) exampleMs 2)
      = ratingsOf (recalculateAllSkillLevels exampleDb exampleMs 1) :=
  recalculate_idempotent exampleDb exampleMs 1 2 (by with_unfolding_all decide)
    (by with_unfolding_all decide)

/-- C8: the player statistics served by the stats endpoint are a permutation
of the per-player statistics, ordered by win rate descending, then wins
descending, then point difference descending. -/
theorem stats_ranking_sorted (db : List Player) (ms : List Match) :
    List.Sorted (fun a b : PlayerStats =>
        b.winRate < a.winRate ∨ (a.winRate = b.winRate ∧
          (b.wins < a.wins ∨ (a.wins = b.wins ∧
            b.pointDifference ≤ a.pointDifference))))
      (statsEndpointPlayerStats db ms) ∧
    (statsEndpointPlayerStats db ms).Perm (getPlayerStats db ms) := by
  constructor
  · have hs := List.sorted_insertionSort rankBefore (getPlayerStats db ms)
    refine hs.imp ?_
    intro a b hab
    unfold rankBefore at hab
    split_ifs at hab <;> omega
  · exact List.perm_insertionSort rankBefore (getPlayerStats db ms)

/-- C9 (counterexample): `getPlayerStats` does emit a suggestion when the
computed target equals the current rating: a player at 5 with two wins and a
loss against equal-rated opponents lands in the maintain band, and the
assessment sets `suggestedSkillLevel = some 5` (the current rating),
`suggestion = "maintain"` and a reason string, instead of leaving the fields
unset. -/
theorem maintain_suggestion_emitted :
    (playerStatsFor (getAllPlayers exampleDb) deadBandMs (mkPlayer 1 5)).skillLevel = 5 ∧
    (playerStatsFor (getAllPlayers exampleDb) deadBandMs (mkPlayer 1 5)).suggestedSkillLevel
      = some 5 ∧
    (playerStatsFor (getAllPlayers exampleDb) deadBandMs (mkPlayer 1 5)).suggestion
      = some "maintain" ∧
    (playerStatsFor (getAllPlayers exampleDb) deadBandMs
      (mkPlayer 1 5)).suggestionReason.isSome = true := by
  with_unfolding_all decide

/-- C9 (amended): in `getSkillLevelSuggestions` (both suggestion-only and
auto-update modes) no suggestion entry is emitted for a player whose computed
target level equals the current rating; the `getPlayerStats` assessment, by
contrast, emits a "maintain" suggestion with `suggestedSkillLevel` set to the
current rating in that case. -/
theorem no_suggestion_when_target_equals_rating (snap : List Player)
    (ms : List Match) (p : Player)
    (h : decideNewLevel p.skillLevel (avgPerformanceFor snap ms p) = p.skillLevel) :
    suggestionFor snap ms p = none := by
  unfold suggestionFor
  by_cases h3 : (playerMatchesOf ms p.id).length < 3
  · rw [if_pos h3]
  · rw [if_neg h3]
    dsimp only
    rw [h]
    simp

/-- C9 (witness): a player in the dead band (target = current rating) gets no
entry from the suggestions pass. -/
theorem no_suggestion_when_target_equals_rating_witness :
    decideNewLevel (mkPlayer 1 5).skillLevel
      (avgPerformanceFor (getAllPlayers exampleDb) deadBandMs (mkPlayer 1 5))
      = (mkPlayer 1 5).skillLevel ∧
    suggestionFor (getAllPlayers exampleDb) deadBandMs (mkPlayer 1 5) = none :=
  ⟨by with_unfolding_all decide,
    no_suggestion_when_target_equals_rating (getAllPlayers exampleDb) deadBandMs
      (mkPlayer 1 5) (by with_unfolding_all decide)⟩

/-- C10: the scoring pass reads one snapshot of players and matches at the
start, so the decision committed for each player depends only on that
snapshot; iterating the players in any order (any permutation of the
snapshot) produces the identical final table. -/
theorem pass_order_independent (db : List Player) (ms : List Match) (now : Nat)
    (order : List Player) (hdb : (db.map Player.id).Nodup)
    (hperm : order.Perm (getAllPlayers db)) :
    checkForSkillLevelUpdatesOrder db ms now order
      = checkForSkillLevelUpdates db ms now := by
  have ho : (order.map Player.id).Nodup :=
    ((hperm.map Player.id).nodup_iff).mpr (getAllPlayers_id_nodup hdb)
  have hsub : ∀ p ∈ order, p ∈ db := fun p hp =>
    List.mem_of_mem_filter (hperm.mem_iff.mp hp)
  rw [checkForSkillLevelUpdatesOrder_eq db ms now order hdb ho hsub]
  unfold checkForSkillLevelUpdates
  rw [checkForSkillLevelUpdatesOrder_eq db ms now (getAllPlayers db) hdb
    (getAllPlayers_id_nodup hdb) (fun p hp => List.mem_of_mem_filter hp)]
  apply List.map_congr_left
  intro q _
  have hiff : q.id ∈ order.map Player.id ↔ q.id ∈ (getAllPlayers db).map Player.id :=
    (hperm.map Player.id).mem_iff
  by_cases hin : q.id ∈ order.map Player.id
  · rw [if_pos hin, if_pos (hiff.mp hin)]
  · rw [if_neg hin, if_neg (fun hmem => hin (hiff.mpr hmem))]

/-- C10 (witness): a permuted iteration order over the §8 example store yields
the same result as the source's snapshot order. -/
theorem pass_order_independent_witness :
    checkForSkillLevelUpdatesOrder exampleDb exampleMs 9
      [mkPlayer 2 5, mkPlayer 1 5, mkPlayer 4 5, mkPlayer 3 5]
      = checkForSkillLevelUpdates exampleDb exampleMs 9 :=
  pass_order_independent exampleDb exampleMs 9
    [mkPlayer 2 5, mkPlayer 1 5, mkPlayer 4 5, mkPlayer 3 5]
    (by with_unfolding_all decide) (by with_unfolding_all decide)

end BadmintonBuddy
